import Mathlib

/-!
Verification of the `Token` entity from `tesserae/db/entities/token.py`.

The Python class `Token` (a subclass of `Entity`) is embedded shallowly:

* A reference-typed field (`text`, `feature_set`, `line`, `phrase`,
  `frequency`) holds either `None`, a raw `bson.objectid.ObjectId`, or a
  fully materialized `Entity`.  `RefVal` models the two non-`None` cases;
  the fields themselves are `Option RefVal`.  An `Entity` has an `id`
  attribute (its `ObjectId`); a raw `ObjectId` has no `id` attribute, so
  accessing `.id` on it raises `AttributeError`.
* The feature attributes `form`, `lemmata`, `semantic`, `sound` are not set
  by the constructor; they are populated by an external enrichment step.
  An unpopulated attribute is `Option.none`, and reading it raises
  `AttributeError` (`getAttr`).
* Python exceptions are modelled with `Except PyErr`; methods that mutate
  the instance return the post-call instance explicitly.
* Modelled from the spec: the base class `Entity` and its generic
  `json_encode` live in `tesserae/db/entities/entity.py`, which is not part
  of this excerpt.  The spec describes it as "the base entity's generic
  encoder" which may succeed or fail; it is taken as an arbitrary function
  parameter `base : Token → Except PyErr J`.
-/

/-- Value stored in a reference-typed field of a `Token` when it is not
`None`: either a fully materialized entity (whose `id` is an `ObjectId`,
modelled by a `Nat`) or a raw `ObjectId`. -/
inductive RefVal where
  | entity (id : Nat)
  | objectId (v : Nat)
deriving DecidableEq, Repr

/-- Python exceptions that the embedded methods can raise:
`attributeError` for a missing attribute (unpopulated feature attribute, or
`.id` on a raw `ObjectId`), `encodeError` for a failure inside the base
entity encoder. -/
inductive PyErr where
  | attributeError
  | encodeError
deriving DecidableEq, Repr

/-- The `Token` instance state: the fields set by `Token.__init__` plus the
feature attributes (`form`, `lemmata`, `semantic`, `sound`) that an external
enrichment step populates after construction. -/
structure Token where
  id : Option Nat
  text : Option RefVal
  index : Option Int
  display : Option String
  feature_set : Option RefVal
  line : Option RefVal
  phrase : Option RefVal
  frequency : Option RefVal
  form : Option String
  lemmata : Option (List String)
  semantic : Option (List String)
  sound : Option (List String)
deriving DecidableEq, Repr

/-- The constructor `Token.__init__(id, text, index, display, feature_set,
line, phrase, frequency)`: it sets exactly those fields and leaves the
feature attributes unset. -/
def Token.init (id : Option Nat) (text : Option RefVal) (index : Option Int)
    (display : Option String) (feature_set : Option RefVal)
    (line : Option RefVal) (phrase : Option RefVal)
    (frequency : Option RefVal) : Token :=
  ⟨id, text, index, display, feature_set, line, phrase, frequency,
   Option.none, Option.none, Option.none, Option.none⟩

/-- Python attribute read: an attribute that was never populated raises
`AttributeError`. -/
def getAttr {α : Type} : Option α → Except PyErr α
  | Option.none => Except.error PyErr.attributeError
  | some a => Except.ok a

/-- Nonemptiness of `set(l1) & set(l2)` in Python: the two lists share at
least one element. -/
def intersects (l1 l2 : List String) : Bool :=
  l1.any (fun x => l2.contains x)

/-- The method `Token.match(self, other, feature)`, line by line.  Attribute
reads go through `getAttr`; the fallback branch mirrors Python's
short-circuiting `and` (the semantic attributes are only read when the
lemmata sets intersect).  The name carries a prime because `match` is a
reserved word in Lean. -/
def Token.match' (self other : Token) (feature : String) :
    Except PyErr Bool :=
  if feature = "word" then do
    let a ← getAttr self.form
    let b ← getAttr other.form
    pure (a == b)
  else if feature = "lemmata" then do
    let a ← getAttr self.lemmata
    let b ← getAttr other.lemmata
    pure (intersects a b)
  else if feature = "semantic" then do
    let a ← getAttr self.semantic
    let b ← getAttr other.semantic
    pure (intersects a b)
  else if feature = "sound" then do
    let a ← getAttr self.sound
    let b ← getAttr other.sound
    pure (intersects a b)
  else do
    let a ← getAttr self.lemmata
    let b ← getAttr other.lemmata
    if intersects a b then do
      let c ← getAttr self.semantic
      let d ← getAttr other.semantic
      pure (intersects c d)
    else
      pure false

/-- The expression `x.id if x is not None else None` applied to a reference
field during the save step of `json_encode`: `None` stays `None`, a full
entity is replaced by its `ObjectId`, and a raw `ObjectId` raises
`AttributeError` because it has no `id` attribute. -/
def substRef : Option RefVal → Except PyErr (Option RefVal)
  | Option.none => Except.ok Option.none
  | some (RefVal.entity i) => Except.ok (some (RefVal.objectId i))
  | some (RefVal.objectId _) => Except.error PyErr.attributeError

/-- The save (identifier-substitution) step of `Token.json_encode`: the five
assignments `self.text = self.text.id if ... else None`, ...,
`self.frequency = ...`, executed in source order.  The returned `Token` is
the instance state when the step finishes or when the first assignment
raises (earlier assignments have already mutated the instance); the
`Option PyErr` is the raised exception, if any. -/
def Token.saveRefs (t : Token) : Token × Option PyErr :=
  match substRef t.text with
  | Except.error e => (t, some e)
  | Except.ok v1 =>
    let t1 := { t with text := v1 }
    match substRef t1.feature_set with
    | Except.error e => (t1, some e)
    | Except.ok v2 =>
      let t2 := { t1 with feature_set := v2 }
      match substRef t2.line with
      | Except.error e => (t2, some e)
      | Except.ok v3 =>
        let t3 := { t2 with line := v3 }
        match substRef t3.phrase with
        | Except.error e => (t3, some e)
        | Except.ok v4 =>
          let t4 := { t3 with phrase := v4 }
          match substRef t4.frequency with
          | Except.error e => (t4, some e)
          | Except.ok v5 => ({ t4 with frequency := v5 }, Option.none)

/-- The method `Token.json_encode(self, exclude)`: save the five reference
fields into `self._ignore`, substitute each with its identifier, call the
base encoder on the substituted instance, then restore the five fields from
`self._ignore`.  There is no `try`/`finally` in the source: when the
substitution step or the base encoder raises, the restoring assignments
never run and the exception propagates.  The result is the returned (or
raised) value together with the instance state at that moment.  The base
encoder is a parameter (see the module docstring); the `exclude` parameter
is passed through to it, so it is folded into `base`. -/
def Token.json_encode {J : Type} (base : Token → Except PyErr J)
    (t : Token) : Except PyErr J × Token :=
  match Token.saveRefs t with
  | (t5, some e) => (Except.error e, t5)
  | (t5, Option.none) =>
    match base t5 with
    | Except.error e => (Except.error e, t5)
    | Except.ok obj =>
      (Except.ok obj,
       { t5 with text := t.text, feature_set := t.feature_set,
                 line := t.line, phrase := t.phrase,
                 frequency := t.frequency })

/-- Value type of the mapping returned by `Token.unique_values`: the `text`
entry holds a reference-field value, the `index` entry holds the integer
position. -/
inductive UVal where
  | refv (r : Option RefVal)
  | intv (i : Option Int)
deriving DecidableEq, Repr

/-- The method `Token.unique_values(self)`: the mapping (as an association
list in source order) `{'text': self.text.id if isinstance(self.text,
Entity) else self.text, 'index': self.index}`. -/
def Token.unique_values (t : Token) : List (String × UVal) :=
  [("text", UVal.refv (match t.text with
      | some (RefVal.entity i) => some (RefVal.objectId i)
      | x => x)),
   ("index", UVal.intv t.index)]

/-- Whether some reference field of `t` holds a raw `ObjectId` (a value
without an `id` attribute). -/
def isRaw : Option RefVal → Bool
  | some (RefVal.objectId _) => true
  | _ => false

/-- Whether any of the five reference fields holds a raw `ObjectId`. -/
def Token.hasRaw (t : Token) : Bool :=
  isRaw t.text || isRaw t.feature_set || isRaw t.line || isRaw t.phrase ||
    isRaw t.frequency

/-- Successful identifier substitution on a single reference field. -/
def subOk : Option RefVal → Option RefVal
  | some (RefVal.entity i) => some (RefVal.objectId i)
  | x => x

/-- Characterization of the save step: it raises `AttributeError` exactly
when some reference field holds a raw `ObjectId`; putting the original five
reference-field values back into its result recovers the original token
(the step touches no other field); and when no field is raw it substitutes
every reference field by its identifier. -/
theorem saveRefs_spec (t : Token) :
    ((Token.saveRefs t).2
        = if t.hasRaw then some PyErr.attributeError else Option.none)
  ∧ ({ (Token.saveRefs t).1 with
        text := t.text, feature_set := t.feature_set, line := t.line,
        phrase := t.phrase, frequency := t.frequency } = t)
  ∧ (t.hasRaw = false →
      (Token.saveRefs t).1
        = { t with text := subOk t.text, feature_set := subOk t.feature_set,
                   line := subOk t.line, phrase := subOk t.phrase,
                   frequency := subOk t.frequency }) := by
  obtain ⟨i0, tx, ix, dp, fs, ln, ph, fr, fo, le, se, so⟩ := t
  rcases tx with _ | (i1 | v1) <;> rcases fs with _ | (i2 | v2) <;>
    rcases ln with _ | (i3 | v3) <;> rcases ph with _ | (i4 | v4) <;>
    rcases fr with _ | (i5 | v5) <;>
    simp [Token.saveRefs, substRef, Token.hasRaw, isRaw, subOk]

/-- Unfolding of `json_encode` when the save step raises: the exception
propagates and the instance is left in the partially substituted state. -/
theorem json_encode_err {J : Type} (base : Token → Except PyErr J)
    (t t5 : Token) (e : PyErr) (h : Token.saveRefs t = (t5, some e)) :
    Token.json_encode base t = (Except.error e, t5) := by
  unfold Token.json_encode
  rw [h]

/-- Unfolding of `json_encode` when the save step succeeds but the base
encoder raises: the exception propagates and the instance keeps the
substituted identifier values. -/
theorem json_encode_base_err {J : Type} (base : Token → Except PyErr J)
    (t t5 : Token) (h : Token.saveRefs t = (t5, Option.none)) (e : PyErr)
    (hb : base t5 = Except.error e) :
    Token.json_encode base t = (Except.error e, t5) := by
  unfold Token.json_encode
  rw [h]
  dsimp only
  rw [hb]

/-- Unfolding of `json_encode` when both the save step and the base encoder
succeed: the reference fields are restored from `self._ignore`. -/
theorem json_encode_ok {J : Type} (base : Token → Except PyErr J)
    (t t5 : Token) (h : Token.saveRefs t = (t5, Option.none)) (j : J)
    (hb : base t5 = Except.ok j) :
    Token.json_encode base t =
      (Except.ok j,
       { t5 with text := t.text, feature_set := t.feature_set,
                 line := t.line, phrase := t.phrase,
                 frequency := t.frequency }) := by
  unfold Token.json_encode
  rw [h]
  dsimp only
  rw [hb]

/-- A token whose five reference fields all hold full entities. -/
def entTok : Token :=
  ⟨Option.none, some (RefVal.entity 1), some 2, some "arma",
   some (RefVal.entity 3), some (RefVal.entity 4), some (RefVal.entity 5),
   some (RefVal.entity 6), Option.none, Option.none, Option.none,
   Option.none⟩

/-- A token whose `text` field holds a raw `ObjectId`. -/
def rawTok : Token :=
  ⟨Option.none, some (RefVal.objectId 7), some 0, some "arma", Option.none,
   Option.none, Option.none, Option.none, Option.none, Option.none,
   Option.none, Option.none⟩

/-- A base encoder that always succeeds, returning an opaque encoded value. -/
def okBase : Token → Except PyErr Nat := fun _ => Except.ok 0

/-- A base encoder that always raises. -/
def errBase : Token → Except PyErr Nat := fun _ => Except.error PyErr.encodeError

/-- Claim C1, counterexample: on `entTok` (all five reference fields full
entities) with a failing base encoder, `json_encode` propagates the error
but leaves `text` holding the substituted identifier, not its pre-call
value — the restoration does not happen on failure. -/
theorem json_encode_not_restored_on_failure_cex :
    (Token.json_encode errBase entTok).2.text ≠ entTok.text := by decide

/-- Claim C1, amended: the reference fields are restored only when the save
step and the base encode call both succeed; when the base encoder raises,
`json_encode` propagates the error with the instance still in the
substituted state, every entity-valued reference field left holding its
identifier. -/
theorem json_encode_restore_only_on_success {J : Type}
    (base : Token → Except PyErr J) (t : Token)
    (hsub : (Token.saveRefs t).2 = Option.none) (e : PyErr)
    (hb : base (Token.saveRefs t).1 = Except.error e) :
    Token.json_encode base t = (Except.error e, (Token.saveRefs t).1)
  ∧ (∀ i, t.text = some (RefVal.entity i) →
      (Token.json_encode base t).2.text = some (RefVal.objectId i)) := by
  rcases hsv : Token.saveRefs t with ⟨t5, e2⟩
  rw [hsv] at hsub hb
  simp only at hsub hb
  subst hsub
  have hje := json_encode_base_err base t t5 hsv e hb
  have hraw : t.hasRaw = false := by
    have h1 := (saveRefs_spec t).1
    rw [hsv] at h1
    cases hh : t.hasRaw
    · rfl
    · rw [hh] at h1
      simp at h1
  have ht5 := (saveRefs_spec t).2.2 hraw
  rw [hsv] at ht5
  simp only at ht5
  constructor
  · rw [hje]
  · intro i hti
    rw [hje]
    simp only
    rw [ht5]
    simp [subOk, hti]

/-- Claim C1, amended, witness: instantiated at `entTok` and the failing
base encoder. -/
theorem json_encode_restore_only_on_success_witness :
    Token.json_encode errBase entTok
      = (Except.error PyErr.encodeError, (Token.saveRefs entTok).1)
  ∧ (Token.json_encode errBase entTok).2.text = some (RefVal.objectId 1) :=
  ⟨(json_encode_restore_only_on_success errBase entTok (by decide)
      PyErr.encodeError rfl).1,
   (json_encode_restore_only_on_success errBase entTok (by decide)
      PyErr.encodeError rfl).2 1 (by decide)⟩

/-- Claim C3: when every reference field holds a full entity and the call to
`json_encode` succeeds, the instance that remains is exactly the original:
each of the five reference fields holds its pre-call value. -/
theorem json_encode_success_preserves_refs {J : Type}
    (base : Token → Except PyErr J) (t : Token) (j : J)
    (_htx : ∃ i, t.text = some (RefVal.entity i))
    (_hfs : ∃ i, t.feature_set = some (RefVal.entity i))
    (_hln : ∃ i, t.line = some (RefVal.entity i))
    (_hph : ∃ i, t.phrase = some (RefVal.entity i))
    (_hfr : ∃ i, t.frequency = some (RefVal.entity i))
    (h : (Token.json_encode base t).1 = Except.ok j) :
    (Token.json_encode base t).2.text = t.text
  ∧ (Token.json_encode base t).2.feature_set = t.feature_set
  ∧ (Token.json_encode base t).2.line = t.line
  ∧ (Token.json_encode base t).2.phrase = t.phrase
  ∧ (Token.json_encode base t).2.frequency = t.frequency
  ∧ (Token.json_encode base t).2 = t := by
  have key : (Token.json_encode base t).2 = t := by
    have hrestore := (saveRefs_spec t).2.1
    rcases hsv : Token.saveRefs t with ⟨t5, e2⟩
    rw [hsv] at hrestore
    simp only at hrestore
    rcases e2 with _ | e
    · rcases hb : base t5 with e | obj
      · rw [json_encode_base_err base t t5 hsv e hb] at h
        simp at h
      · rw [json_encode_ok base t t5 hsv obj hb]
        exact hrestore
    · rw [json_encode_err base t t5 e hsv] at h
      simp at h
  exact ⟨by rw [key], by rw [key], by rw [key], by rw [key], by rw [key],
         key⟩

/-- Claim C3, witness: instantiated at `entTok` and the succeeding base
encoder. -/
theorem json_encode_success_preserves_refs_witness :
    (Token.json_encode okBase entTok).2 = entTok :=
  (json_encode_success_preserves_refs okBase entTok 0 ⟨1, rfl⟩ ⟨3, rfl⟩
    ⟨4, rfl⟩ ⟨5, rfl⟩ ⟨6, rfl⟩ rfl).2.2.2.2.2

/-- Claim C7: when some reference field holds a raw identifier (a value
without an `id` attribute), `json_encode` raises `AttributeError`, and it
does so already in the save step; when no field is raw — every non-`None`
reference field is a full entity — the save step does not raise. -/
theorem json_encode_raw_ref_fails {J : Type}
    (base : Token → Except PyErr J) (t : Token) :
    (t.hasRaw = true →
      (Token.json_encode base t).1 = Except.error PyErr.attributeError
      ∧ (Token.saveRefs t).2 = some PyErr.attributeError)
  ∧ (t.hasRaw = false → (Token.saveRefs t).2 = Option.none) := by
  have hspec := (saveRefs_spec t).1
  constructor
  · intro hr
    rw [hr] at hspec
    simp only [if_pos] at hspec
    rcases hsv : Token.saveRefs t with ⟨t5, e2⟩
    rw [hsv] at hspec
    simp only at hspec
    subst hspec
    refine ⟨?_, rfl⟩
    rw [json_encode_err base t t5 PyErr.attributeError hsv]
  · intro hnr
    rw [hnr] at hspec
    simpa using hspec

/-- Claim C7, witness: `rawTok` (raw `text`) makes the save step and
`json_encode` raise `AttributeError`; `entTok` (all entities) passes the
save step. -/
theorem json_encode_raw_ref_fails_witness :
    (Token.json_encode okBase rawTok).1 = Except.error PyErr.attributeError
  ∧ (Token.saveRefs entTok).2 = Option.none :=
  ⟨((json_encode_raw_ref_fails okBase rawTok).1 (by decide)).1,
   (json_encode_raw_ref_fails okBase entTok).2 (by decide)⟩

/-- Set intersection nonemptiness is symmetric. -/
theorem intersects_comm (l1 l2 : List String) :
    intersects l1 l2 = intersects l2 l1 := by
  rw [Bool.eq_iff_iff]
  simp only [intersects, List.any_eq_true, List.contains, List.elem_eq_mem,
    decide_eq_true_eq]
  exact ⟨fun ⟨x, h1, h2⟩ => ⟨x, h2, h1⟩, fun ⟨x, h1, h2⟩ => ⟨x, h2, h1⟩⟩

/-- Boolean string equality is symmetric. -/
theorem str_beq_comm (a b : String) : (a == b) = (b == a) := by
  rw [Bool.eq_iff_iff]
  simp only [beq_iff_eq]
  exact ⟨Eq.symm, Eq.symm⟩

/-- The attributes that a given `feature` string makes `match` consult: the
implicit precondition for `match` to complete without an attribute error.
For the fallback branch both the lemmata and the semantic attributes are
listed (Python's short-circuiting `and` may skip the semantic ones, so this
is the safe superset the spec describes). -/
def consulted (feature : String) (t : Token) : Bool :=
  if feature = "word" then t.form.isSome
  else if feature = "lemmata" then t.lemmata.isSome
  else if feature = "semantic" then t.semantic.isSome
  else if feature = "sound" then t.sound.isSome
  else t.lemmata.isSome && t.semantic.isSome

/-- Characterization of `intersects`: the lists share at least one element. -/
theorem intersects_iff (l1 l2 : List String) :
    intersects l1 l2 = true ↔ ∃ x, x ∈ l1 ∧ x ∈ l2 := by
  simp only [intersects, List.any_eq_true, List.contains, List.elem_eq_mem,
    decide_eq_true_eq]

/-- Claim C4: with both `form` attributes populated, `match` on the `word`
feature returns exactly the string-equality test of the two forms; in
particular it is true iff the forms are equal. -/
theorem match_word_form_equality (A B : Token) (fa fb : String)
    (hA : A.form = some fa) (hB : B.form = some fb) :
    Token.match' A B "word" = Except.ok (fa == fb)
  ∧ (Token.match' A B "word" = Except.ok true ↔ fa = fb) := by
  have h1 : Token.match' A B "word" = Except.ok (fa == fb) := by
    simp [Token.match', getAttr, hA, hB, Bind.bind, Except.bind, pure,
      Except.pure]
  refine ⟨h1, ?_⟩
  rw [h1]
  simp [beq_iff_eq]

/-- Claim C4, witness: two tokens with identical form `"arma"`. -/
theorem match_word_form_equality_witness :
    Token.match' { entTok with form := some "arma" }
      { rawTok with form := some "arma" } "word" = Except.ok true :=
  (match_word_form_equality { entTok with form := some "arma" }
    { rawTok with form := some "arma" } "arma" "arma" rfl rfl).2.mpr rfl

/-- Claim C2: with lemmata and semantic attributes populated on both tokens,
`match` on any feature other than `word`, `lemmata`, `semantic`, `sound`
(including `lemmata + semantic` and any unrecognized name) returns the
conjunction of the lemmata-intersection and semantic-intersection tests. -/
theorem match_fallback_is_and (A B : Token) (la lb sa sb : List String)
    (hAl : A.lemmata = some la) (hBl : B.lemmata = some lb)
    (hAs : A.semantic = some sa) (hBs : B.semantic = some sb)
    (f : String) (h1 : f ≠ "word") (h2 : f ≠ "lemmata")
    (h3 : f ≠ "semantic") (h4 : f ≠ "sound") :
    Token.match' A B f
      = Except.ok (intersects la lb && intersects sa sb)
  ∧ (Token.match' A B f = Except.ok true ↔
      (∃ x, x ∈ la ∧ x ∈ lb) ∧ (∃ x, x ∈ sa ∧ x ∈ sb)) := by
  have key : Token.match' A B f
      = Except.ok (intersects la lb && intersects sa sb) := by
    simp only [Token.match', if_neg h1, if_neg h2, if_neg h3, if_neg h4]
    simp only [getAttr, hAl, hBl, hAs, hBs]
    cases hi : intersects la lb <;>
      simp [hi, Bind.bind, Except.bind, pure, Except.pure]
  refine ⟨key, ?_⟩
  rw [key]
  simp [Bool.and_eq_true, intersects_iff]

/-- Claim C2, witness: feature `"lemmata + semantic"`, lemmata intersect but
semantic sets do not, so the conjunction is false. -/
theorem match_fallback_is_and_witness :
    Token.match'
      { entTok with lemmata := some ["amo", "amare"],
                    semantic := some ["love"] }
      { rawTok with lemmata := some ["amare", "habeo"],
                    semantic := some ["have"] }
      "lemmata + semantic" = Except.ok false := by
  have h := (match_fallback_is_and
    { entTok with lemmata := some ["amo", "amare"],
                  semantic := some ["love"] }
    { rawTok with lemmata := some ["amare", "habeo"],
                  semantic := some ["have"] }
    ["amo", "amare"] ["amare", "habeo"] ["love"] ["have"]
    rfl rfl rfl rfl "lemmata + semantic"
    (by decide) (by decide) (by decide) (by decide)).1
  rw [h]
  rfl

/-- Claim C5: with both lemmata attributes populated, `match` on the
`lemmata` feature is true iff the lemmata sets share an element; and on
every feature whose consulted attributes are populated on both tokens,
`match` is symmetric. -/
theorem match_lemmata_and_symm (A B : Token) (la lb : List String)
    (hA : A.lemmata = some la) (hB : B.lemmata = some lb) :
    (Token.match' A B "lemmata" = Except.ok true ↔ ∃ x, x ∈ la ∧ x ∈ lb)
  ∧ (∀ f : String, consulted f A = true → consulted f B = true →
      Token.match' A B f = Token.match' B A f) := by
  constructor
  · have h1 : Token.match' A B "lemmata" = Except.ok (intersects la lb) := by
      simp [Token.match', getAttr, hA, hB, Bind.bind, Except.bind, pure,
        Except.pure]
    rw [h1]
    simp [intersects_iff]
  · intro f cA cB
    by_cases hw : f = "word"
    · subst hw
      rcases hfa : A.form with _ | fa
      · simp [consulted, hfa] at cA
      rcases hfb : B.form with _ | fb
      · simp [consulted, hfb] at cB
      simp [Token.match', getAttr, hfa, hfb, Bind.bind, Except.bind, pure,
        Except.pure, str_beq_comm fa fb]
    · by_cases hl : f = "lemmata"
      · subst hl
        simp [Token.match', getAttr, hA, hB, Bind.bind, Except.bind, pure,
          Except.pure, intersects_comm la lb]
      · by_cases hs : f = "semantic"
        · subst hs
          rcases hsa : A.semantic with _ | sa
          · simp [consulted, hsa] at cA
          rcases hsb : B.semantic with _ | sb
          · simp [consulted, hsb] at cB
          simp [Token.match', getAttr, hsa, hsb, Bind.bind, Except.bind,
            pure, Except.pure, intersects_comm sa sb]
        · by_cases hd : f = "sound"
          · subst hd
            rcases hda : A.sound with _ | da
            · simp [consulted, hda] at cA
            rcases hdb : B.sound with _ | db
            · simp [consulted, hdb] at cB
            simp [Token.match', getAttr, hda, hdb, Bind.bind, Except.bind,
              pure, Except.pure, intersects_comm da db]
          · simp only [consulted, if_neg hw, if_neg hl, if_neg hs,
              if_neg hd, Bool.and_eq_true] at cA cB
            obtain ⟨cA1, cA2⟩ := cA
            obtain ⟨cB1, cB2⟩ := cB
            rcases hla2 : A.lemmata with _ | la2
            · rw [hla2] at cA1; simp at cA1
            rcases hsa2 : A.semantic with _ | sa2
            · rw [hsa2] at cA2; simp at cA2
            rcases hlb2 : B.lemmata with _ | lb2
            · rw [hlb2] at cB1; simp at cB1
            rcases hsb2 : B.semantic with _ | sb2
            · rw [hsb2] at cB2; simp at cB2
            simp only [Token.match', if_neg hw, if_neg hl, if_neg hs,
              if_neg hd]
            simp only [getAttr, hla2, hlb2, hsa2, hsb2, Bind.bind,
              Except.bind]
            rw [intersects_comm la2 lb2, intersects_comm sa2 sb2]

/-- Claim C5, witness: tokens sharing the lemma `"amare"`, checked on the
`lemmata` feature and for symmetry on the `word` feature. -/
theorem match_lemmata_and_symm_witness :
    Token.match'
      { entTok with lemmata := some ["amo", "amare"], form := some "x" }
      { rawTok with lemmata := some ["amare", "habeo"], form := some "y" }
      "lemmata" = Except.ok true
  ∧ Token.match'
      { entTok with lemmata := some ["amo", "amare"], form := some "x" }
      { rawTok with lemmata := some ["amare", "habeo"], form := some "y" }
      "word"
    = Token.match'
      { rawTok with lemmata := some ["amare", "habeo"], form := some "y" }
      { entTok with lemmata := some ["amo", "amare"], form := some "x" }
      "word" :=
  ⟨(match_lemmata_and_symm
      { entTok with lemmata := some ["amo", "amare"], form := some "x" }
      { rawTok with lemmata := some ["amare", "habeo"], form := some "y" }
      ["amo", "amare"] ["amare", "habeo"] rfl rfl).1.mpr
      ⟨"amare", by decide, by decide⟩,
   (match_lemmata_and_symm
      { entTok with lemmata := some ["amo", "amare"], form := some "x" }
      { rawTok with lemmata := some ["amare", "habeo"], form := some "y" }
      ["amo", "amare"] ["amare", "habeo"] rfl rfl).2 "word" (by decide)
      (by decide)⟩

/-- A token whose `text` field holds a full entity with identifier 7, the
same identifier that `rawTok` stores raw. -/
def entTok7 : Token :=
  ⟨Option.none, some (RefVal.entity 7), some 0, some "arma", Option.none,
   Option.none, Option.none, Option.none, Option.none, Option.none,
   Option.none, Option.none⟩

/-- Claim C6: `unique_values` returns a mapping with exactly the keys
`text` and `index`; the `index` entry is the token's index; the `text`
entry is the referenced text's identifier whether `text` holds a full
entity or the raw identifier, so both representations of the same logical
text agree; neither `id` nor any feature field appears. -/
theorem unique_values_spec (t t1 t2 : Token) (i : Nat)
    (h1 : t1.text = some (RefVal.entity i))
    (h2 : t2.text = some (RefVal.objectId i)) :
    (Token.unique_values t).map Prod.fst = ["text", "index"]
  ∧ ("index", UVal.intv t.index) ∈ Token.unique_values t
  ∧ "id" ∉ (Token.unique_values t).map Prod.fst
  ∧ Token.unique_values t1
      = [("text", UVal.refv (some (RefVal.objectId i))),
         ("index", UVal.intv t1.index)]
  ∧ Token.unique_values t2
      = [("text", UVal.refv (some (RefVal.objectId i))),
         ("index", UVal.intv t2.index)] := by
  refine ⟨rfl, by simp [Token.unique_values], by simp [Token.unique_values],
    ?_, ?_⟩
  · simp [Token.unique_values, h1]
  · simp [Token.unique_values, h2]

/-- Claim C6, witness: `entTok7` (entity with id 7) and `rawTok` (raw id 7)
yield the same `text` entry. -/
theorem unique_values_spec_witness :
    Token.unique_values entTok7
      = [("text", UVal.refv (some (RefVal.objectId 7))),
         ("index", UVal.intv entTok7.index)]
  ∧ Token.unique_values rawTok
      = [("text", UVal.refv (some (RefVal.objectId 7))),
         ("index", UVal.intv rawTok.index)] :=
  ⟨(unique_values_spec entTok entTok7 rawTok 7 rfl rfl).2.2.2.1,
   (unique_values_spec entTok entTok7 rawTok 7 rfl rfl).2.2.2.2⟩

/-- Claim C8: on two freshly constructed tokens — the constructor leaves
`form`, `lemmata`, `semantic`, `sound` unpopulated — `match` raises
`AttributeError` for every feature string, without any precondition
check. -/
theorem match_unpopulated_attribute_error
    (i1 i2 : Option Nat) (tx1 tx2 : Option RefVal) (ix1 ix2 : Option Int)
    (d1 d2 : Option String) (fs1 fs2 ln1 ln2 ph1 ph2 fr1 fr2 : Option RefVal)
    (f : String) :
    Token.match' (Token.init i1 tx1 ix1 d1 fs1 ln1 ph1 fr1)
      (Token.init i2 tx2 ix2 d2 fs2 ln2 ph2 fr2) f
      = Except.error PyErr.attributeError := by
  unfold Token.match' Token.init
  split
  · rfl
  · split
    · rfl
    · split
      · rfl
      · split
        · rfl
        · rfl

/-- Claim C9: whenever the attributes consulted by the chosen feature are
populated on both tokens, `match` completes without raising and returns a
boolean.  Mutation-freedom holds by construction: the source method
contains no assignment, so its embedding is a pure function of the two
tokens and the feature. -/
theorem match_boolean_on_consulted (A B : Token) (f : String)
    (hA : consulted f A = true) (hB : consulted f B = true) :
    ∃ b : Bool, Token.match' A B f = Except.ok b := by
  by_cases hw : f = "word"
  · subst hw
    rcases hfa : A.form with _ | fa
    · simp [consulted, hfa] at hA
    rcases hfb : B.form with _ | fb
    · simp [consulted, hfb] at hB
    exact ⟨fa == fb, by simp [Token.match', getAttr, hfa, hfb, Bind.bind,
      Except.bind, pure, Except.pure]⟩
  · by_cases hl : f = "lemmata"
    · subst hl
      rcases hla : A.lemmata with _ | la
      · simp [consulted, hla] at hA
      rcases hlb : B.lemmata with _ | lb
      · simp [consulted, hlb] at hB
      exact ⟨intersects la lb, by simp [Token.match', getAttr, hla, hlb,
        Bind.bind, Except.bind, pure, Except.pure]⟩
    · by_cases hs : f = "semantic"
      · subst hs
        rcases hsa : A.semantic with _ | sa
        · simp [consulted, hsa] at hA
        rcases hsb : B.semantic with _ | sb
        · simp [consulted, hsb] at hB
        exact ⟨intersects sa sb, by simp [Token.match', getAttr, hsa, hsb,
          Bind.bind, Except.bind, pure, Except.pure]⟩
      · by_cases hd : f = "sound"
        · subst hd
          rcases hda : A.sound with _ | da
          · simp [consulted, hda] at hA
          rcases hdb : B.sound with _ | db
          · simp [consulted, hdb] at hB
          exact ⟨intersects da db, by simp [Token.match', getAttr, hda, hdb,
            Bind.bind, Except.bind, pure, Except.pure]⟩
        · simp only [consulted, if_neg hw, if_neg hl, if_neg hs, if_neg hd,
            Bool.and_eq_true] at hA hB
          obtain ⟨hA1, hA2⟩ := hA
          obtain ⟨hB1, hB2⟩ := hB
          rcases hla : A.lemmata with _ | la
          · rw [hla] at hA1; simp at hA1
          rcases hsa : A.semantic with _ | sa
          · rw [hsa] at hA2; simp at hA2
          rcases hlb : B.lemmata with _ | lb
          · rw [hlb] at hB1; simp at hB1
          rcases hsb : B.semantic with _ | sb
          · rw [hsb] at hB2; simp at hB2
          refine ⟨intersects la lb && intersects sa sb, ?_⟩
          simp only [Token.match', if_neg hw, if_neg hl, if_neg hs,
            if_neg hd]
          simp only [getAttr, hla, hlb, hsa, hsb, Bind.bind, Except.bind]
          cases hi : intersects la lb <;>
            simp [hi, Bind.bind, Except.bind, pure, Except.pure]

/-- Claim C9, witness: match on the `word` feature with both forms
populated returns a boolean. -/
theorem match_boolean_on_consulted_witness :
    ∃ b : Bool, Token.match' { entTok with form := some "arma" }
      { rawTok with form := some "virum" } "word" = Except.ok b :=
  match_boolean_on_consulted { entTok with form := some "arma" }
    { rawTok with form := some "virum" } "word" (by decide) (by decide)

/-- Claim C10: `match` on the `word` feature reads only the `form`
attributes: it succeeds and returns the form-equality result even when
`lemmata`, `semantic` and `sound` were never populated on either token. -/
theorem match_word_ignores_other_features (A B : Token) (fa fb : String)
    (hA : A.form = some fa) (hB : B.form = some fb)
    (_h1 : A.lemmata = Option.none) (_h2 : A.semantic = Option.none)
    (_h3 : A.sound = Option.none) (_h4 : B.lemmata = Option.none)
    (_h5 : B.semantic = Option.none) (_h6 : B.sound = Option.none) :
    Token.match' A B "word" = Except.ok (fa == fb) := by
  simp [Token.match', getAttr, hA, hB, Bind.bind, Except.bind, pure,
    Except.pure]

/-- Claim C10, witness: equal forms, every other feature attribute
unpopulated. -/
theorem match_word_ignores_other_features_witness :
    Token.match' { entTok with form := some "arma" }
      { rawTok with form := some "arma" } "word"
      = Except.ok ("arma" == "arma") :=
  match_word_ignores_other_features { entTok with form := some "arma" }
    { rawTok with form := some "arma" } "arma" "arma" rfl rfl rfl rfl rfl
    rfl rfl rfl
